import Mathlib

/-!
Verification of the js-pkg-go repository against its specification.

The repository consists of a single runtime function `sum` (index.ts and
src/sum/sum.ts) plus three CLI orchestration scripts (build.ts, test.ts,
publish.ts and the scripts/ variants).  Each relevant piece of source is
embedded below as an executable Lean definition; JavaScript numbers are
modelled as rationals (every concrete value appearing in the repository is
exactly representable), JavaScript strings as Lean strings (and, where the
per-character behaviour of String.prototype.split matters, as lists of
characters), and the effectful script bodies as pure functions over an
explicit environment describing the outcome of each external-process call.
-/

namespace JsPkgGo

/-- Embedding of `sum` from index.ts / src/sum/sum.ts:
`return args.reduce((acc, val) => acc + val, 0);`
JavaScript `Array.prototype.reduce` with an initial accumulator is a
left-to-right fold, i.e. `List.foldl`. -/
def sum (args : List ℚ) : ℚ :=
  args.foldl (fun acc val => acc + val) 0

namespace TestTs

/-!
Embedding of the CLI part of test.ts.  `process.argv[2]` is the command
(`Option String`, `none` when absent) and `process.argv.slice(3)` the flag
list.  The external test-runner invocations (`execSync`) are modelled by an
environment `exec : String → Bool` giving each command string's success;
a `false` result stands for a non-zero exit, which `execSync` surfaces as a
thrown error that the script re-throws and that terminates the process
with a non-zero exit code (modelled as exit code 1).
-/

/-- test.ts options record (the `watch` field is parsed but unused). -/
structure TestOptions where
  coverage : Bool
  verbose : Bool
  watch : Bool
deriving DecidableEq

/-- A token is a flag when it starts with the `--` marker:
JavaScript `flag.startsWith("--")`, expressed on the token's character
list so that it evaluates by kernel reduction. -/
def isFlag (s : String) : Bool := ['-', '-'].isPrefixOf s.toList

/-- `const fileArg = flags.find((flag) => !flag.startsWith("--"));` -/
def fileArg (flags : List String) : Option String :=
  flags.find? (fun flag => !(isFlag flag))

/-- `const cleanFlags = flags.filter((flag) => flag.startsWith("--"));` -/
def cleanFlags (flags : List String) : List String :=
  flags.filter isFlag

/-- The `options` record test.ts derives from the flag tokens. -/
def parseOptions (flags : List String) : TestOptions :=
  let cf := cleanFlags flags
  { coverage := cf.contains "--coverage" || cf.contains "--cov"
    verbose := cf.contains "--verbose" || cf.contains "--v"
    watch := cf.contains "--watch" || cf.contains "--w" }

/-- The command string run by `runTestsWithCoverage`:
`bun ${["test", "--coverage"].join(" ")}`. -/
def coverageCmd : String := "bun " ++ String.intercalate " " ["test", "--coverage"]

/-- The command string run by `runFileTests(filename, options)`:
base args `["test", filename, "--watch"]`, then `--coverage` when
`options.coverage` is truthy, then `--verbose` when `options.verbose` is. -/
def fileCmd (filename : String) (options : TestOptions) : String :=
  "bun " ++ String.intercalate " "
    (["test", filename, "--watch"] ++
      (if options.coverage then ["--coverage"] else []) ++
      (if options.verbose then ["--verbose"] else []))

/-- JavaScript truthiness test `!command` on an optional string: true when
the value is absent or the empty string. -/
def isFalsy : Option String → Bool
  | none => true
  | some s => if s = "" then true else false

/-- Observable outcome of one run of the test.ts CLI. -/
structure Outcome where
  helpPrinted : Bool
  usageError : Bool
  executed : List String
  exitCode : Nat
deriving DecidableEq

/-- Embedding of the `switch (command)` dispatcher at the bottom of
test.ts.  In the `file` case the record passed on is
`{...options, coverage: options.coverage ?? true}`; since
`options.coverage` is always a boolean (never nullish), the `?? true`
falls away and the options are passed unchanged. -/
def dispatch (exec : String → Bool) (command : Option String)
    (flags : List String) : Outcome :=
  let fa := fileArg flags
  let options := parseOptions flags
  if command = some "coverage" then
    if exec coverageCmd then ⟨false, false, [coverageCmd], 0⟩
    else ⟨false, false, [coverageCmd], 1⟩
  else if command = some "file" then
    if isFalsy fa then ⟨false, true, [], 1⟩
    else
      match fa with
      | some f =>
          let cmd := fileCmd f options
          if exec cmd then ⟨false, false, [cmd], 0⟩
          else ⟨false, false, [cmd], 1⟩
      | none => ⟨false, true, [], 1⟩
  else
    if isFalsy command then
      if exec coverageCmd then ⟨true, false, [coverageCmd], 0⟩
      else ⟨true, false, [coverageCmd], 1⟩
    else ⟨true, false, [], 0⟩

end TestTs

namespace ScriptsTest

/-!
Embedding of scripts/test: the typed error of types.ts, the operations of
utils.ts and the dispatcher of the scripts-variant test entry point, whose
`parseCommandLineArgs` computes `fileArg` and `cleanFlags` exactly like
test.ts (the definitions from `TestTs` are reused for those).
-/

/-- scripts/test/types.ts `TestOptions`; the optional fields are `Option
Bool` with `none` for `undefined`. -/
structure TestOptions where
  coverage : Option Bool
  verbose : Option Bool
  watch : Option Bool
deriving DecidableEq

/-- scripts/test/types.ts `TestExecutionError`: a message plus the failed
command string. -/
structure TestExecutionError where
  message : String
  command : Option String
deriving DecidableEq

/-- Argument list built by `runAllTests`: `["test"]`, plus `--coverage`
unless `options.coverage !== false` fails. -/
def allTestsArgs (options : TestOptions) : List String :=
  ["test"] ++ (if options.coverage = some false then [] else ["--coverage"])

/-- The command string `bun ${args.join(" ")}` run by `runAllTests`. -/
def allTestsCmd (options : TestOptions) : String :=
  "bun " ++ String.intercalate " " (allTestsArgs options)

/-- scripts/test/utils.ts `runAllTests`: run the command; on a non-zero
exit re-throw as `TestExecutionError` carrying the command string. -/
def runAllTests (exec : String → Bool) (options : TestOptions) :
    Except TestExecutionError Unit :=
  if exec (allTestsCmd options) then .ok ()
  else .error ⟨"Test execution failed", some (allTestsCmd options)⟩

/-- Argument list built by `runSingleFileTests`: base
`["test", filename, "--watch"]`, plus `--coverage` unless coverage is
exactly `false`, plus `--verbose` when verbose is truthy. -/
def singleFileArgs (filename : String) (options : TestOptions) : List String :=
  ["test", filename, "--watch"] ++
    (if options.coverage = some false then [] else ["--coverage"]) ++
    (if options.verbose = some true then ["--verbose"] else [])

/-- The command string run by `runSingleFileTests`. -/
def singleFileCmd (filename : String) (options : TestOptions) : String :=
  "bun " ++ String.intercalate " " (singleFileArgs filename options)

/-- scripts/test/utils.ts `runSingleFileTests`. -/
def runSingleFileTests (exec : String → Bool) (filename : String)
    (options : TestOptions) : Except TestExecutionError Unit :=
  if exec (singleFileCmd filename options) then .ok ()
  else .error ⟨"Test execution failed for " ++ filename,
    some (singleFileCmd filename options)⟩

/-- The options record of the scripts-variant `parseCommandLineArgs`:
every field is set to a concrete boolean. -/
def parseOptions (flags : List String) : TestOptions :=
  let cf := TestTs.cleanFlags flags
  ⟨some (cf.contains "--coverage" || cf.contains "--cov"),
   some (cf.contains "--verbose" || cf.contains "--v"),
   some (cf.contains "--watch" || cf.contains "--w")⟩

/-- Observable outcome of one run of the scripts-variant test CLI.
`propagated` is the uncaught `TestExecutionError` (the process terminates
with a non-zero exit code when it is present). -/
structure Outcome where
  helpPrinted : Bool
  usageError : Bool
  executed : List String
  propagated : Option TestExecutionError
  exitCode : Nat
deriving DecidableEq

/-- Embedding of the scripts-variant `switch (command)` dispatcher with
cases `coverage`, `file`, `help` and the help-printing default. -/
def dispatch (exec : String → Bool) (command : Option String)
    (flags : List String) : Outcome :=
  let fa := TestTs.fileArg flags
  let options := parseOptions flags
  if command = some "coverage" then
    match runAllTests exec options with
    | .ok _ => ⟨false, false, [allTestsCmd options], none, 0⟩
    | .error e => ⟨false, false, [allTestsCmd options], some e, 1⟩
  else if command = some "file" then
    if TestTs.isFalsy fa then ⟨false, true, [], none, 1⟩
    else
      match fa with
      | some f =>
          match runSingleFileTests exec f options with
          | .ok _ => ⟨false, false, [singleFileCmd f options], none, 0⟩
          | .error e => ⟨false, false, [singleFileCmd f options], some e, 1⟩
      | none => ⟨false, true, [], none, 1⟩
  else if command = some "help" then ⟨true, false, [], none, 0⟩
  else if TestTs.isFalsy command then
    match runAllTests exec options with
    | .ok _ => ⟨true, false, [allTestsCmd options], none, 0⟩
    | .error e => ⟨true, false, [allTestsCmd options], some e, 1⟩
  else ⟨true, false, [], none, 0⟩

end ScriptsTest

namespace Publish

/-!
Embedding of publish.ts.  `publishWithVersionBump` is a straight-line
sequence of four awaited steps; each step's success or failure is given by
an environment assigning every step an `Except` outcome, and the embedding
returns the list of steps that actually ran together with the overall
result.  `validatePackage` is embedded over an abstract file-system
predicate and an already-parsed package manifest.
-/

/-- The four steps of the release workflow, in source order. -/
inductive Step
  | build
  | validate
  | bump
  | publish
deriving DecidableEq

/-- The fixed order build → validate → version-bump → publish. -/
def stepOrder : List Step := [.build, .validate, .bump, .publish]

/-- Outcome environment: what each step does when it runs (errors are
modelled by their message). -/
structure StepEnv where
  run : Step → Except String Unit

/-- publish.ts `publishWithVersionBump`: run the four steps in order,
stopping at (and re-throwing) the first failure.  The first component is
the list of steps that ran. -/
def publishWithVersionBump (env : StepEnv) : List Step × Except String Unit :=
  match env.run .build with
  | .error e => ([.build], .error e)
  | .ok _ =>
    match env.run .validate with
    | .error e => ([.build, .validate], .error e)
    | .ok _ =>
      match env.run .bump with
      | .error e => ([.build, .validate, .bump], .error e)
      | .ok _ =>
        match env.run .publish with
        | .error e => (stepOrder, .error e)
        | .ok _ => (stepOrder, .ok ())

/-- Example environment in which the validate step fails. -/
def failingValidateEnv : StepEnv :=
  ⟨fun s => match s with
    | .validate => .error "boom"
    | _ => .ok ()⟩

/-- The fields of package.json read by `validatePackage`.  `name` and
`version` are strings with `""` standing for an absent or empty (falsy)
value, exactly as the JavaScript guards `!pkg.name` / `!pkg.version`
conflate them; the three entry-point fields record truthiness of
`pkg.main`, `pkg.module` and `pkg.exports`. -/
structure Manifest where
  name : String
  version : String
  main : Bool
  moduleField : Bool
  exports : Bool
deriving DecidableEq

/-- The `requiredFiles` list of `validatePackage`, in source order. -/
def requiredFiles : List String :=
  ["dist/index.js", "dist/index.d.ts", "package.json", "README.md"]

/-- publish.ts `validatePackage` over a file-existence predicate and the
parsed manifest: the `dist` directory check, the required-files loop
(which throws at the first missing file), then the manifest field checks.
The thrown error messages are reproduced verbatim (the original quotes
around field names are written as unicode escapes). -/
def validatePackage (fileExists : String → Bool) (pkg : Manifest) :
    Except String Unit :=
  if fileExists "dist" = false then
    .error "Build required before publishing"
  else
    match requiredFiles.find? (fun file => !(fileExists file)) with
    | some file => .error ("Missing required file: " ++ file)
    | none =>
      if pkg.name = "" then
        .error "package.json missing \u0027name\u0027 field"
      else if pkg.version = "" then
        .error "package.json missing \u0027version\u0027 field"
      else if !pkg.main && !pkg.moduleField && !pkg.exports then
        .error "package.json missing entry point (main/module/exports)"
      else
        .ok ()

end Publish

namespace ArgSplit

/-!
Embedding of the valued-flag parsing shared by build.ts, publish.ts and
the scripts-variant build entry point:
`flags.find((f) => f.startsWith("--tag="))?.split("=")[1]` (and likewise
for `--registry=`, `--target=`, `--format=`).  JavaScript
`String.prototype.split("=")` splits on every occurrence of the
separator, so it is embedded on the token's character list.
-/

/-- JavaScript `token.split("=")` on a character list: split at every
`=`, keeping empty segments. -/
def jsSplitEq : List Char → List (List Char)
  | [] => [[]]
  | c :: cs =>
    if c = '=' then [] :: jsSplitEq cs
    else
      match jsSplitEq cs with
      | [] => [[c]]
      | s :: ss => (c :: s) :: ss

/-- The valued-flag parser: find the first token starting with the marker
and take element 1 of its `split("=")` array (the element exists whenever
a token was found, because the marker itself ends in `=`). -/
def valuedFlag (marker : List Char) (flags : List (List Char)) :
    Option (List Char) :=
  match flags.find? (fun f => marker.isPrefixOf f) with
  | none => none
  | some f => (jsSplitEq f)[1]?

end ArgSplit

/-- The accumulator can be pulled out of the fold used by `sum`. -/
theorem sum_foldl_eq (a : ℚ) (xs : List ℚ) :
    xs.foldl (fun acc val => acc + val) a = a + xs.sum := by
  induction xs generalizing a with
  | nil => simp
  | cons x xs ih => simp [List.foldl_cons, ih, add_assoc]

/-- `sum` agrees with the mathematical sum of the list. -/
theorem sum_eq_listSum (xs : List ℚ) : sum xs = xs.sum := by
  simpa [sum] using sum_foldl_eq 0 xs

/-- C1: `sum` is the left-to-right fold of addition starting from 0, which
equals the mathematical sum of its arguments; in particular `sum()` = 0,
`sum(2,3)` = 5, `sum(1,2,3,4,5)` = 15, `sum(-1,-2,-3)` = -6 and
`sum(1.5,2.5)` = 4. -/
theorem sum_correct :
    (∀ xs : List ℚ, sum xs = xs.sum) ∧
    sum [] = 0 ∧
    sum [2, 3] = 5 ∧
    sum [1, 2, 3, 4, 5] = 15 ∧
    sum [-1, -2, -3] = -6 ∧
    sum [1.5, 2.5] = 4 := by
  refine ⟨sum_eq_listSum, ?_, ?_, ?_, ?_, ?_⟩ <;> norm_num [sum]

/-- C2: `sum` is consistent with incremental accumulation:
`sum(xs ++ [y])` equals `sum(xs) + y`. -/
theorem sum_append_singleton (xs : List ℚ) (y : ℚ) :
    sum (xs ++ [y]) = sum xs + y := by
  simp [sum, List.foldl_append]

/-- C3: `sum` is invariant under permutation of its argument list. -/
theorem sum_perm (xs p : List ℚ) (h : p.Perm xs) : sum p = sum xs := by
  rw [sum_eq_listSum, sum_eq_listSum]
  exact h.sum_eq

/-- Witness for C3 at a concrete permutation: `sum(2,1)` = `sum(1,2)`. -/
theorem sum_perm_witness : sum [2, 1] = sum [1, 2] :=
  sum_perm [1, 2] [2, 1] (List.Perm.swap 1 2 [])

/-- C4 counterexample: the empty string is a present command token that is
not one of the recognized commands, yet the test.ts dispatcher runs the
default operation for it (because the JavaScript guard `if (!command)` is
also true for `""`), contradicting "the help message is printed and the
process exits with status 0 without running any operation". -/
theorem dispatch_empty_command_runs_operation :
    ¬ (TestTs.dispatch (fun _ => true) (some "") []).executed = [] := by
  decide

/-- C4 amended: if the command token is absent OR the empty string, the
default operation (run all tests with coverage) runs; if the command token
is present, non-empty and unrecognized, the help message is printed and
the process exits with status 0 without running any operation. -/
theorem dispatch_default_and_unrecognized (exec : String → Bool)
    (flags : List String) (c : String)
    (hne : c ≠ "") (hc1 : c ≠ "coverage") (hc2 : c ≠ "file") :
    (TestTs.dispatch exec none flags).executed = [TestTs.coverageCmd] ∧
    (TestTs.dispatch exec (some "") flags).executed = [TestTs.coverageCmd] ∧
    TestTs.dispatch exec (some c) flags =
      { helpPrinted := true, usageError := false, executed := [], exitCode := 0 } := by
  refine ⟨?_, ?_, ?_⟩
  · by_cases h : exec TestTs.coverageCmd <;>
      simp [TestTs.dispatch, TestTs.isFalsy, h]
  · by_cases h : exec TestTs.coverageCmd <;>
      simp [TestTs.dispatch, TestTs.isFalsy, h]
  · simp [TestTs.dispatch, TestTs.isFalsy, hne, hc1, hc2]

/-- Witness for the amended C4 at the concrete unrecognized command
`help` (test.ts has no `help` case). -/
theorem dispatch_default_and_unrecognized_witness :
    (TestTs.dispatch (fun _ => true) none []).executed = [TestTs.coverageCmd] ∧
    (TestTs.dispatch (fun _ => true) (some "") []).executed = [TestTs.coverageCmd] ∧
    TestTs.dispatch (fun _ => true) (some "help") [] =
      { helpPrinted := true, usageError := false, executed := [], exitCode := 0 } :=
  dispatch_default_and_unrecognized (fun _ => true) [] "help"
    (by decide) (by decide) (by decide)

/-- C5: when the command is `file` and every token of the flag list starts
with `--` (so no positional filename is present), the test.ts dispatcher
prints the usage error, exits with status 1, and invokes no external
process. -/
theorem dispatch_file_without_filename (exec : String → Bool)
    (flags : List String) (h : ∀ f ∈ flags, TestTs.isFlag f = true) :
    TestTs.dispatch exec (some "file") flags =
      { helpPrinted := false, usageError := true, executed := [], exitCode := 1 } := by
  have hfa : TestTs.fileArg flags = none := by
    rw [TestTs.fileArg, List.find?_eq_none]
    intro x hx
    simp [h x hx]
  simp [TestTs.dispatch, hfa, TestTs.isFalsy]

/-- Witness for C5 with a concrete flag-only argument list. -/
theorem dispatch_file_without_filename_witness :
    TestTs.dispatch (fun _ => true) (some "file") ["--coverage"] =
      { helpPrinted := false, usageError := true, executed := [], exitCode := 1 } :=
  dispatch_file_without_filename (fun _ => true) ["--coverage"] (by decide)

/-- C10: the positional file argument is the first token after the command
that does not start with `--`, wherever it sits relative to the flag
tokens, and non-flag tokens never influence the parsed options record
(the options depend only on the `--`-marked tokens). -/
theorem fileArg_first_non_flag (pre post flags : List String) (f : String)
    (hpre : ∀ x ∈ pre, TestTs.isFlag x = true) (hf : TestTs.isFlag f = false) :
    TestTs.fileArg (pre ++ f :: post) = some f ∧
    TestTs.parseOptions flags = TestTs.parseOptions (TestTs.cleanFlags flags) := by
  constructor
  · rw [TestTs.fileArg, List.find?_append]
    have h1 : List.find? (fun flag => !(TestTs.isFlag flag)) pre = none := by
      rw [List.find?_eq_none]
      intro x hx
      simp [hpre x hx]
    rw [h1, List.find?_cons_of_pos _ (by simp [hf])]
    rfl
  · have : TestTs.cleanFlags (TestTs.cleanFlags flags) = TestTs.cleanFlags flags := by
      rw [TestTs.cleanFlags, TestTs.cleanFlags, List.filter_filter]
      simp
    rw [TestTs.parseOptions, TestTs.parseOptions, this]

/-- Witness for C10: flags before, an extra ignored non-flag token after. -/
theorem fileArg_first_non_flag_witness :
    TestTs.fileArg (["--coverage"] ++ "sum.test.ts" :: ["extra"]) = some "sum.test.ts" ∧
    TestTs.parseOptions ["--v", "notaflag"] =
      TestTs.parseOptions (TestTs.cleanFlags ["--v", "notaflag"]) :=
  fileArg_first_non_flag ["--coverage"] ["extra"] ["--v", "notaflag"] "sum.test.ts"
    (by decide) (by decide)

/-- C6: `publishWithVersionBump` runs exactly build → validate →
version-bump → publish; when a step fails, no later step runs and the
step's error is returned unchanged; when every step succeeds, exactly the
four steps run in order. -/
theorem publish_steps (env : Publish.StepEnv) (e : String) :
    (env.run Publish.Step.build = .error e →
      Publish.publishWithVersionBump env = ([Publish.Step.build], .error e)) ∧
    (env.run Publish.Step.build = .ok () →
      env.run Publish.Step.validate = .error e →
      Publish.publishWithVersionBump env =
        ([Publish.Step.build, Publish.Step.validate], .error e)) ∧
    (env.run Publish.Step.build = .ok () →
      env.run Publish.Step.validate = .ok () →
      env.run Publish.Step.bump = .error e →
      Publish.publishWithVersionBump env =
        ([Publish.Step.build, Publish.Step.validate, Publish.Step.bump], .error e)) ∧
    (env.run Publish.Step.build = .ok () →
      env.run Publish.Step.validate = .ok () →
      env.run Publish.Step.bump = .ok () →
      env.run Publish.Step.publish = .error e →
      Publish.publishWithVersionBump env = (Publish.stepOrder, .error e)) ∧
    (env.run Publish.Step.build = .ok () →
      env.run Publish.Step.validate = .ok () →
      env.run Publish.Step.bump = .ok () →
      env.run Publish.Step.publish = .ok () →
      Publish.publishWithVersionBump env = (Publish.stepOrder, .ok ())) := by
  refine ⟨?_, ?_, ?_, ?_, ?_⟩
  · intro h1
    simp [Publish.publishWithVersionBump, h1]
  · intro h1 h2
    simp [Publish.publishWithVersionBump, h1, h2]
  · intro h1 h2 h3
    simp [Publish.publishWithVersionBump, h1, h2, h3]
  · intro h1 h2 h3 h4
    simp [Publish.publishWithVersionBump, h1, h2, h3, h4]
  · intro h1 h2 h3 h4
    simp [Publish.publishWithVersionBump, h1, h2, h3, h4]

/-- Witness for C6: in an environment whose validate step fails, only
build and validate run and the validate error comes back unchanged. -/
theorem publish_steps_witness :
    Publish.publishWithVersionBump Publish.failingValidateEnv =
      ([Publish.Step.build, Publish.Step.validate], Except.error "boom") :=
  (publish_steps Publish.failingValidateEnv "boom").2.1 rfl rfl

/-- C7 counterexample: on a file system with none of the paths present,
`validatePackage` throws the generic "Build required before publishing"
error, which names no missing file, contradicting "the raised error names
the specific missing file or field". -/
theorem validatePackage_generic_error :
    Publish.validatePackage (fun _ => false) ⟨"pkg", "1.0.0", true, false, false⟩ =
      Except.error "Build required before publishing" ∧
    ∀ f ∈ Publish.requiredFiles,
      ("Build required before publishing" : String) ≠
        "Missing required file: " ++ f :=
  ⟨rfl, by decide⟩

/-- `validatePackage` succeeds exactly when the dist directory and every
required file exist and the manifest has truthy name, version and at
least one entry point. -/
theorem validate_ok_iff (fileExists : String → Bool) (pkg : Publish.Manifest) :
    Publish.validatePackage fileExists pkg = .ok () ↔
      (fileExists "dist" = true ∧
       (∀ f ∈ Publish.requiredFiles, fileExists f = true) ∧
       pkg.name ≠ "" ∧ pkg.version ≠ "" ∧
       ¬(pkg.main = false ∧ pkg.moduleField = false ∧ pkg.exports = false)) := by
  cases hd : fileExists "dist" with
  | false => simp [Publish.validatePackage, hd]
  | true =>
      cases hfind : Publish.requiredFiles.find? (fun file => !(fileExists file)) with
      | some f =>
          have hmem := List.mem_of_find?_eq_some hfind
          have hpf : fileExists f = false := by
            have := List.find?_some hfind
            simpa using this
          simp [Publish.validatePackage, hd, hfind]
          intro hall
          exact absurd (hall f hmem) (by simp [hpf])
      | none =>
          have hall : ∀ f ∈ Publish.requiredFiles, fileExists f = true := by
            intro f hf
            have := List.find?_eq_none.mp hfind f hf
            simpa using this
          by_cases hn : pkg.name = ""
          · simp [Publish.validatePackage, hd, hfind, hn, hall]
          · by_cases hv : pkg.version = ""
            · simp [Publish.validatePackage, hd, hfind, hn, hv, hall]
            · cases hm : pkg.main with
              | true =>
                  simp [Publish.validatePackage, hd, hfind, hn, hv, hm]
                  exact hall
              | false =>
                  cases hmo : pkg.moduleField with
                  | true =>
                      simp [Publish.validatePackage, hd, hfind, hn, hv, hm, hmo]
                      exact hall
                  | false =>
                      cases hex : pkg.exports with
                      | true =>
                          simp [Publish.validatePackage, hd, hfind, hn, hv,
                            hm, hmo, hex]
                          exact hall
                      | false =>
                          simp [Publish.validatePackage, hd, hfind, hn, hv, hall,
                            hm, hmo, hex]

/-- C7 amended: on a file system where the existence of
`dist/index.js` implies the existence of the `dist` directory,
`validatePackage` fails exactly when a required path is missing or the
manifest lacks name, version or an entry point; the raised error names
the specific missing file or field, except that a missing `dist`
directory raises the generic "Build required before publishing" error. -/
theorem validatePackage_spec (fileExists : String → Bool) (pkg : Publish.Manifest)
    (hfs : fileExists "dist/index.js" = true → fileExists "dist" = true) :
    (Publish.validatePackage fileExists pkg ≠ .ok () ↔
      ((∃ f ∈ Publish.requiredFiles, fileExists f = false) ∨ pkg.name = "" ∨
        pkg.version = "" ∨
        (pkg.main = false ∧ pkg.moduleField = false ∧ pkg.exports = false))) ∧
    (fileExists "dist" = false →
      Publish.validatePackage fileExists pkg =
        .error "Build required before publishing") ∧
    (∀ f, fileExists "dist" = true →
      Publish.requiredFiles.find? (fun file => !(fileExists file)) = some f →
      Publish.validatePackage fileExists pkg =
        .error ("Missing required file: " ++ f)) ∧
    (fileExists "dist" = true →
      Publish.requiredFiles.find? (fun file => !(fileExists file)) = none →
      pkg.name = "" →
      Publish.validatePackage fileExists pkg =
        .error "package.json missing 'name' field") ∧
    (fileExists "dist" = true →
      Publish.requiredFiles.find? (fun file => !(fileExists file)) = none →
      pkg.name ≠ "" → pkg.version = "" →
      Publish.validatePackage fileExists pkg =
        .error "package.json missing 'version' field") ∧
    (fileExists "dist" = true →
      Publish.requiredFiles.find? (fun file => !(fileExists file)) = none →
      pkg.name ≠ "" → pkg.version ≠ "" →
      pkg.main = false → pkg.moduleField = false → pkg.exports = false →
      Publish.validatePackage fileExists pkg =
        .error "package.json missing entry point (main/module/exports)") := by
  refine ⟨?_, ?_, ?_, ?_, ?_, ?_⟩
  · constructor
    · intro h
      by_cases hmiss : ∃ f ∈ Publish.requiredFiles, fileExists f = false
      · exact Or.inl hmiss
      · push_neg at hmiss
        have hB : ∀ f ∈ Publish.requiredFiles, fileExists f = true := by
          intro f hf
          have := hmiss f hf
          revert this
          cases fileExists f <;> simp
        have hA : fileExists "dist" = true :=
          hfs (hB "dist/index.js" (by simp [Publish.requiredFiles]))
        by_cases hn : pkg.name = ""
        · exact Or.inr (Or.inl hn)
        · by_cases hv : pkg.version = ""
          · exact Or.inr (Or.inr (Or.inl hv))
          · by_cases he : pkg.main = false ∧ pkg.moduleField = false ∧
                pkg.exports = false
            · exact Or.inr (Or.inr (Or.inr he))
            · exact absurd ((validate_ok_iff fileExists pkg).mpr
                ⟨hA, hB, hn, hv, he⟩) h
    · intro h hok
      obtain ⟨hA, hB, hC, hD, hE⟩ := (validate_ok_iff fileExists pkg).mp hok
      rcases h with ⟨f, hf, hff⟩ | hn | hv | he
      · rw [hB f hf] at hff
        simp at hff
      · exact hC hn
      · exact hD hv
      · exact hE he
  · intro hd
    simp [Publish.validatePackage, hd]
  · intro f hd hfind
    simp [Publish.validatePackage, hd, hfind]
  · intro hd hfind hn
    simp [Publish.validatePackage, hd, hfind, hn]
  · intro hd hfind hn hv
    simp [Publish.validatePackage, hd, hfind, hn, hv]
  · intro hd hfind hn hv hm hmo hex
    simp [Publish.validatePackage, hd, hfind, hn, hv, hm, hmo, hex]

/-- Witness for the amended C7: `dist` exists but `dist/index.js` does
not, and the error names that file. -/
theorem validatePackage_spec_witness :
    Publish.validatePackage (fun s => if s = "dist" then true else false)
      ⟨"pkg", "1.0.0", true, false, false⟩ =
      Except.error ("Missing required file: " ++ "dist/index.js") :=
  (validatePackage_spec (fun s => if s = "dist" then true else false)
    ⟨"pkg", "1.0.0", true, false, false⟩ (by decide)).2.2.1
    "dist/index.js" (by decide) (by decide)

/-- C8: when an external test-runner invocation exits non-zero, both
operations of scripts/test/utils.ts return a `TestExecutionError` whose
`command` field is exactly the failed command string, and the dispatcher
propagates the error, terminating with a non-zero exit code. -/
theorem runTests_failure_propagates (exec : String → Bool)
    (options : ScriptsTest.TestOptions) (filename : String) (flags : List String)
    (h1 : exec (ScriptsTest.allTestsCmd options) = false)
    (h2 : exec (ScriptsTest.singleFileCmd filename options) = false)
    (h3 : exec (ScriptsTest.allTestsCmd (ScriptsTest.parseOptions flags)) = false) :
    ScriptsTest.runAllTests exec options =
      .error ⟨"Test execution failed", some (ScriptsTest.allTestsCmd options)⟩ ∧
    ScriptsTest.runSingleFileTests exec filename options =
      .error ⟨"Test execution failed for " ++ filename,
        some (ScriptsTest.singleFileCmd filename options)⟩ ∧
    ScriptsTest.dispatch exec (some "coverage") flags =
      ⟨false, false, [ScriptsTest.allTestsCmd (ScriptsTest.parseOptions flags)],
        some ⟨"Test execution failed",
          some (ScriptsTest.allTestsCmd (ScriptsTest.parseOptions flags))⟩, 1⟩ := by
  refine ⟨?_, ?_, ?_⟩
  · simp [ScriptsTest.runAllTests, h1]
  · simp [ScriptsTest.runSingleFileTests, h2]
  · simp [ScriptsTest.dispatch, ScriptsTest.runAllTests, h3]

/-- Witness for C8 with an always-failing runner. -/
theorem runTests_failure_propagates_witness :
    ScriptsTest.runAllTests (fun _ => false) ⟨some true, none, none⟩ =
      .error ⟨"Test execution failed",
        some (ScriptsTest.allTestsCmd ⟨some true, none, none⟩)⟩ ∧
    ScriptsTest.runSingleFileTests (fun _ => false) "sum.test.ts"
        ⟨some true, none, none⟩ =
      .error ⟨"Test execution failed for " ++ "sum.test.ts",
        some (ScriptsTest.singleFileCmd "sum.test.ts" ⟨some true, none, none⟩)⟩ ∧
    ScriptsTest.dispatch (fun _ => false) (some "coverage") [] =
      ⟨false, false, [ScriptsTest.allTestsCmd (ScriptsTest.parseOptions [])],
        some ⟨"Test execution failed",
          some (ScriptsTest.allTestsCmd (ScriptsTest.parseOptions []))⟩, 1⟩ :=
  runTests_failure_propagates (fun _ => false) ⟨some true, none, none⟩
    "sum.test.ts" [] rfl rfl rfl

/-- `jsSplitEq` always returns at least one segment. -/
theorem jsSplitEq_ne_nil (l : List Char) : ArgSplit.jsSplitEq l ≠ [] := by
  induction l with
  | nil => simp [ArgSplit.jsSplitEq]
  | cons c cs ih =>
      by_cases h : c = '='
      · simp [ArgSplit.jsSplitEq, h]
      · cases hs : ArgSplit.jsSplitEq cs with
        | nil => exact absurd hs ih
        | cons s ss => simp [ArgSplit.jsSplitEq, h, hs]

/-- The first segment of `jsSplitEq` is the input up to the first `=`. -/
theorem jsSplitEq_head (l : List Char) :
    (ArgSplit.jsSplitEq l).head? = some (l.takeWhile (fun c => !(c == '='))) := by
  induction l with
  | nil => simp [ArgSplit.jsSplitEq]
  | cons c cs ih =>
      by_cases h : c = '='
      · simp [ArgSplit.jsSplitEq, h, List.takeWhile_cons]
      · cases hs : ArgSplit.jsSplitEq cs with
        | nil => exact absurd hs (jsSplitEq_ne_nil cs)
        | cons s ss =>
            rw [hs] at ih
            simp only [List.head?_cons, Option.some.injEq] at ih
            simp [ArgSplit.jsSplitEq, h, hs, List.takeWhile_cons, ih]

/-- Splitting a token whose head segment contains no `=` peels off that
segment. -/
theorem jsSplitEq_append_sep (name rest : List Char) (h : '=' ∉ name) :
    ArgSplit.jsSplitEq (name ++ '=' :: rest) = name :: ArgSplit.jsSplitEq rest := by
  revert h
  induction name with
  | nil =>
      intro h
      simp [ArgSplit.jsSplitEq]
  | cons c cs ih =>
      intro h
      have hc : ¬ c = '=' := fun hh => h (by simp [hh])
      have hcs : ('=' : Char) ∉ cs := fun hm => h (List.mem_cons_of_mem _ hm)
      have ih2 := ih hcs
      rw [List.cons_append]
      simp [ArgSplit.jsSplitEq, hc, ih2]

/-- C9 counterexample: for the token `--tag=a=b` the parser yields `a`,
not the full remainder `a=b` after the first separator. -/
theorem valuedFlag_truncates :
    ArgSplit.valuedFlag ['-', '-', 't', 'a', 'g', '=']
        [['-', '-', 't', 'a', 'g', '=', 'a', '=', 'b']] = some ['a'] ∧
    ¬ ArgSplit.valuedFlag ['-', '-', 't', 'a', 'g', '=']
        [['-', '-', 't', 'a', 'g', '=', 'a', '=', 'b']] = some ['a', '=', 'b'] := by
  decide

/-- C9 amended: for a valued flag token `name=value`, the parser yields
the portion of the value before its first further `=` (the entire value
exactly when the value itself contains no `=`). -/
theorem valuedFlag_splits (name v : List Char) (rest : List (List Char))
    (h : '=' ∉ name) :
    ArgSplit.valuedFlag (name ++ ['=']) ((name ++ '=' :: v) :: rest) =
      some (v.takeWhile (fun c => !(c == '='))) ∧
    ('=' ∉ v →
      ArgSplit.valuedFlag (name ++ ['=']) ((name ++ '=' :: v) :: rest) = some v) := by
  have hpre : (name ++ ['=']).isPrefixOf (name ++ '=' :: v) = true := by
    rw [List.isPrefixOf_iff_prefix]
    have hsplit : name ++ '=' :: v = (name ++ ['=']) ++ v := by simp
    rw [hsplit]
    exact List.prefix_append _ _
  have hfind :
      ((name ++ '=' :: v) :: rest).find?
        (fun f => (name ++ ['=']).isPrefixOf f) = some (name ++ '=' :: v) :=
    List.find?_cons_of_pos _ hpre
  have hmain :
      ArgSplit.valuedFlag (name ++ ['=']) ((name ++ '=' :: v) :: rest) =
        some (v.takeWhile (fun c => !(c == '='))) := by
    simp only [ArgSplit.valuedFlag, hfind]
    rw [jsSplitEq_append_sep name v h]
    cases hs : ArgSplit.jsSplitEq v with
    | nil => exact absurd hs (jsSplitEq_ne_nil v)
    | cons s ss =>
        have hh := jsSplitEq_head v
        rw [hs] at hh
        simp only [List.head?_cons, Option.some.injEq] at hh
        simp [hh]
  refine ⟨hmain, fun hv => ?_⟩
  rw [hmain]
  have : v.takeWhile (fun c => !(c == '=')) = v := by
    rw [List.takeWhile_eq_self_iff]
    intro a ha
    simp
    exact fun hh => hv (hh ▸ ha)
  rw [this]

/-- Witness for the amended C9 at the concrete token `--tag=a=b`. -/
theorem valuedFlag_splits_witness :
    ArgSplit.valuedFlag (['-', '-', 't', 'a', 'g'] ++ ['='])
      ((['-', '-', 't', 'a', 'g'] ++ '=' :: ['a', '=', 'b']) :: []) = some ['a'] := by
  have h := (valuedFlag_splits ['-', '-', 't', 'a', 'g'] ['a', '=', 'b'] []
    (by decide)).1
  simpa using h

end JsPkgGo
